import Mathlib

/-!
Shallow embedding of the core of the maestro kernel (scheduler, event
dispatcher, signal engine, ext2 inode engine) together with proofs that
settle the specification claims against it.

Each definition is translated from the corresponding Rust source file;
definitions whose source module is absent from the provided tree are marked
`Modelled from the spec:` in their doc comment and follow the specification
text instead.
-/

namespace Maestro

/-! ## Process scheduler (src/process/scheduler.rs) -/

/-- Process states, from the `State` enumeration used by the scheduler and
the signal engine (the `Process` structure itself lives in the missing
`process/mod.rs`; the spec lists exactly these four states). -/
inductive PState
  | Running
  | Sleeping
  | Stopped
  | Zombie
deriving DecidableEq

/-- The scheduler-visible attributes of a process: PID, priority,
quantum counter and state (spec section 3, "Process"). -/
structure Proc where
  pid : Nat
  priority : Nat
  quantum_count : Nat
  state : PState
deriving DecidableEq

/-- Modelled from the spec: `Process::can_run` lives in the missing
`process/mod.rs`; the spec's selection step picks "the first process whose
state is Running". -/
def Proc.can_run (p : Proc) : Bool :=
  match p.state with
  | PState.Running => true
  | _ => false

/-- The number of quanta for the process with the average priority
(`AVERAGE_PRIORITY_QUANTA`). -/
def AVERAGE_PRIORITY_QUANTA : Nat := 10

/-- The number of quanta for the process with the maximum priority
(`MAX_PRIORITY_QUANTA`). -/
def MAX_PRIORITY_QUANTA : Nat := 30

/-- Modelled from the spec: `util::math::integer_linear_interpolation` is
not under src. Per the quantum model of spec section 4.C, the budget is the
linear interpolation mapping `x0` to `y0` and `x1` to `y1`, evaluated at
`x`; Rust `isize` division truncates toward zero (`Int.tdiv`). -/
def integer_linear_interpolation (x x0 x1 y0 y1 : Int) : Int :=
  y0 + Int.tdiv ((x - x0) * (y1 - y0)) (x1 - x0)

/-- The scheduler state: the process map in ascending PID order, the PID of
the current process, and the maintained priority aggregates
(`Scheduler` structure, scheduler.rs lines 40-58; the per-CPU stacks and
tick bookkeeping are not needed by any claim). -/
structure Scheduler where
  processes : List Proc
  curr_pid : Option Nat
  priority_sum : Nat
  priority_max : Nat

/-- `Scheduler::get_average_priority` (scheduler.rs lines 164-166). -/
def Scheduler.get_average_priority (priority_sum processes_count : Nat) : Nat :=
  priority_sum / processes_count

/-- `Scheduler::get_quantum_count` (scheduler.rs lines 174-182): linear
interpolation between the average and maximum priority, clamped to at
least 1. -/
def Scheduler.get_quantum_count (priority priority_sum priority_max processes_count : Nat) :
    Nat :=
  let n := integer_linear_interpolation (Int.ofNat priority)
    (Int.ofNat (Scheduler.get_average_priority priority_sum processes_count))
    (Int.ofNat priority_max)
    (Int.ofNat AVERAGE_PRIORITY_QUANTA)
    (Int.ofNat MAX_PRIORITY_QUANTA)
  (max 1 n).toNat

/-- `Scheduler::update_priority` (scheduler.rs lines 127-135). The sum is
adjusted by `- old + new` (usize arithmetic; the subtraction never
underflows on states reachable through add/remove); the maximum is only
ever raised, as the source's FIXME comment notes. -/
def Scheduler.update_priority (s : Scheduler) (old new : Nat) : Scheduler :=
  let s := { s with priority_sum := s.priority_sum - old + new }
  if new ≥ s.priority_max then { s with priority_max := new } else s

/-- Insertion into the PID-ordered process map (`Map::insert` on a map
keyed by PID; an existing entry with the same PID is replaced). -/
def insertProc (p : Proc) : List Proc → List Proc
  | [] => [p]
  | q :: t =>
    if p.pid < q.pid then p :: q :: t
    else if p.pid = q.pid then p :: t
    else q :: insertProc p t

/-- `Scheduler::add_process` (scheduler.rs lines 138-146): insert, then
`update_priority(0, priority)`. -/
def Scheduler.add_process (s : Scheduler) (p : Proc) : Scheduler :=
  let s := { s with processes := insertProc p s.processes }
  s.update_priority 0 p.priority

/-- `Scheduler::remove_process` (scheduler.rs lines 149-158): look the PID
up, remove it and `update_priority(priority, 0)`. -/
def Scheduler.remove_process (s : Scheduler) (pid : Nat) : Scheduler :=
  match s.processes.find? (fun q => q.pid = pid) with
  | none => s
  | some p =>
    let s := { s with processes := s.processes.filter (fun q => q.pid ≠ pid) }
    s.update_priority p.priority 0

/-- `Scheduler::can_run` (scheduler.rs lines 186-196). The quantum-budget
comparison against `get_quantum_count` is commented out in the source
behind a `TODO fix` marker, so only `Process::can_run` is consulted. -/
def Scheduler.can_run (process : Proc)
    (_priority_sum _priority_max _processes_count : Nat) : Bool :=
  process.can_run

/-- The iteration closure `next` inside `get_next_process` (scheduler.rs
lines 218-237): first process of the list for which `Scheduler::can_run`
holds. -/
def findRunnable (priority_sum priority_max processes_count : Nat) :
    List Proc → Option Proc
  | [] => none
  | p :: t =>
    if Scheduler.can_run p priority_sum priority_max processes_count then some p
    else findRunnable priority_sum priority_max processes_count t

/-- `Scheduler::get_next_process` (scheduler.rs lines 201-258): scan the
PID-ordered map from the successor of the current PID, wrapping to the
start; on a change of process (or when a single process exists) the
previous process's quantum counter is reset.  Returns the chosen
(pid, process) pair together with the process list after the reset. -/
def Scheduler.get_next_process (s : Scheduler) : Option (Nat × Proc × List Proc) :=
  let priority_sum := s.priority_sum
  let priority_max := s.priority_max
  let processes_count := s.processes.length
  if processes_count = 0 then none
  else
    let currOpt : Option Nat :=
      match s.curr_pid with
      | some pid => some pid
      | none => s.processes.head?.map Proc.pid
    match currOpt with
    | none => none
    | some curr_pid =>
      let after := s.processes.filter (fun p => decide (curr_pid < p.pid))
      let next_proc :=
        match findRunnable priority_sum priority_max processes_count after with
        | some p => some p
        | none => findRunnable priority_sum priority_max processes_count s.processes
      match next_proc with
      | none => none
      | some np =>
        let procs :=
          if np.pid ≠ curr_pid ∨ processes_count = 1 then
            s.processes.map (fun q =>
              if q.pid = curr_pid then { q with quantum_count := 0 } else q)
          else s.processes
        some (np.pid, np, procs)

/-- Selection as claim C1 words it: starting from the successor of the
current PID in key order (wrapping to the start), the first process whose
state is Running and whose quantum counter is strictly below its quantum
budget. -/
def spec_select (s : Scheduler) : Option Nat :=
  let cnt := s.processes.length
  let eligible : Proc → Bool := fun p =>
    p.can_run &&
      decide (p.quantum_count <
        Scheduler.get_quantum_count p.priority s.priority_sum s.priority_max cnt)
  match s.curr_pid with
  | none => (s.processes.find? eligible).map Proc.pid
  | some curr_pid =>
    let after := s.processes.filter (fun p => decide (curr_pid < p.pid))
    match after.find? eligible with
    | some p => some p.pid
    | none => (s.processes.find? eligible).map Proc.pid

/-- The scheduler state exhibiting claim C1's failure: two Running
processes; the one the scan reaches first has exhausted its budget. -/
def schedC1 : Scheduler :=
  { processes := [⟨1, 10, 0, PState.Running⟩, ⟨2, 20, 100, PState.Running⟩]
    curr_pid := some 1
    priority_sum := 30
    priority_max := 20 }

/-- C1: the claim states that the process selected on a tick is the first
Running process (in wrap-around PID order after the current PID) whose
`quantum_count` is strictly below its quantum budget.  The source's
`can_run` has that budget comparison commented out (`TODO fix`), so the
scheduler here picks PID 2 even though its counter 100 is not below its
budget 30, while the claimed selection rule would pick PID 1. -/
theorem c1_selection_ignores_quantum_budget :
    (schedC1.get_next_process).map (fun r => r.1) = some 2 ∧
    Scheduler.get_quantum_count 20 30 20 2 = 30 ∧
    ¬ (100 < Scheduler.get_quantum_count 20 30 20 2) ∧
    spec_select schedC1 = some 1 := by
  decide

/-- The scheduler state exhibiting claim C2's failure: processes of
priority 1 and 5 are added, then the priority-5 process is removed. -/
def schedC2 : Scheduler :=
  ((Scheduler.mk [] none 0 0).add_process ⟨1, 1, 0, PState.Running⟩).add_process
    ⟨2, 5, 0, PState.Running⟩

/-- C2: the claim states that after removals `priority_max` equals the
maximum priority over the remaining set.  Removing the priority-5 process
leaves `priority_max = 5` although the only remaining priority is 1 (the
source's FIXME admits the maximum cannot be recomputed); the maintained
`priority_sum` is exact. -/
theorem c2_priority_max_not_recomputed :
    (schedC2.remove_process 2).priority_max = 5 ∧
    ((schedC2.remove_process 2).processes.map Proc.priority) = [1] ∧
    (schedC2.remove_process 2).priority_sum = 1 := by
  decide

/-! ## Event dispatcher (src/event.rs) -/

/-- The action to execute after an interrupt handler returns
(`InterruptResultAction`, event.rs lines 61-68). -/
inductive InterruptResultAction
  | Resume
  | Loop
  | Panic
deriving DecidableEq

/-- The result of one callback: whether to skip the remaining handlers and
the action to execute (`InterruptResult`, event.rs lines 71-77). -/
structure InterruptResult where
  skip_next : Bool
  action : InterruptResultAction
deriving DecidableEq

/-- A registered callback with its priority (`CallbackWrapper`, event.rs
lines 103-108); the payload type `α` stands for the boxed `dyn Callback`. -/
structure CallbackWrapper (α : Type) where
  priority : Nat
  callback : α

/-- The interrupt error messages, one per CPU exception vector
(`ERROR_MESSAGES`, event.rs lines 16-49). -/
def ERROR_MESSAGES : List String :=
  ["Divide-by-zero Error", "Debug", "Non-maskable Interrupt", "Breakpoint",
   "Overflow", "Bound Range Exceeded", "Invalid Opcode", "Device Not Available",
   "Double Fault", "Coprocessor Segment Overrun", "Invalid TSS",
   "Segment Not Present", "Stack-Segment Fault", "General Protection Fault",
   "Page Fault", "Unknown", "x87 Floating-Point Exception", "Alignement Check",
   "Machine Check", "SIMD Floating-Point Exception", "Virtualization Exception",
   "Unknown", "Unknown", "Unknown", "Unknown", "Unknown", "Unknown", "Unknown",
   "Unknown", "Unknown", "Security Exception", "Unknown"]

/-- Modelled from the spec: the custom `Vec::binary_search_by` and
`Vec::insert` used by `register_callback` (event.rs lines 163-178) live in
the missing `util/container/vec.rs`.  Per spec sections 3 and 4.B the
registration "inserts respecting descending priority" with ties broken by
insertion order, so a new callback is placed after every callback whose
priority is at least its own. -/
def insert_callback {α : Type} (c : CallbackWrapper α) :
    List (CallbackWrapper α) → List (CallbackWrapper α)
  | [] => [c]
  | x :: xs =>
    if c.priority ≤ x.priority then x :: insert_callback c xs
    else c :: x :: xs

/-- Registering a sequence of callbacks on one vector: repeated
`register_callback` (event.rs lines 153-182) starting from the empty list
set up by `init`. -/
def register_callbacks {α : Type} (regs : List (Nat × α)) : List (CallbackWrapper α) :=
  regs.foldl (fun vec pc => insert_callback ⟨pc.1, pc.2⟩ vec) []

/-- The callback loop of `event_handler` (event.rs lines 205-211): each
result's action overwrites the decision and `skip_next` stops the
iteration. -/
def dispatch_loop {α : Type} (call : α → InterruptResult) :
    List (CallbackWrapper α) → InterruptResultAction → InterruptResultAction
  | [], last_action => last_action
  | c :: rest, _ =>
    let result := call c.callback
    if result.skip_next then result.action
    else dispatch_loop call rest result.action

/-- The decision part of `event_handler` (event.rs lines 191-214): the
initial decision is Panic for CPU-exception vectors and Resume otherwise,
then the callbacks run through `dispatch_loop`. -/
def event_handler_action {α : Type} (call : α → InterruptResult) (id : Nat)
    (callbacks : List (CallbackWrapper α)) : InterruptResultAction :=
  dispatch_loop call callbacks
    (if id < ERROR_MESSAGES.length then InterruptResultAction.Panic
     else InterruptResultAction.Resume)

/-- The callbacks claim C3 says actually execute: the list up to and
including the first one whose result sets `skip_next`. -/
def executed_callbacks {α : Type} (call : α → InterruptResult) :
    List (CallbackWrapper α) → List (CallbackWrapper α)
  | [] => []
  | c :: rest =>
    if (call c.callback).skip_next then [c]
    else c :: executed_callbacks call rest

/-- Inserting a callback yields a permutation of pushing it in front. -/
theorem insert_callback_perm {α : Type} (c : CallbackWrapper α) :
    ∀ l : List (CallbackWrapper α), (insert_callback c l).Perm (c :: l) := by
  intro l
  induction l with
  | nil => simp [insert_callback]
  | cons x xs ih =>
    by_cases h : c.priority ≤ x.priority
    · simpa [insert_callback, h] using ((ih.cons x).trans (List.Perm.swap c x xs))
    · simp [insert_callback, h]

/-- Membership after insertion comes from the new callback or the old list. -/
theorem mem_insert_callback {α : Type} {y c : CallbackWrapper α}
    {l : List (CallbackWrapper α)} (h : y ∈ insert_callback c l) : y = c ∨ y ∈ l := by
  have := (insert_callback_perm c l).mem_iff.mp h
  simpa using this

/-- Insertion preserves the descending-priority ordering. -/
theorem insert_callback_sorted {α : Type} (c : CallbackWrapper α)
    {l : List (CallbackWrapper α)}
    (hl : l.Pairwise (fun a b => b.priority ≤ a.priority)) :
    (insert_callback c l).Pairwise (fun a b => b.priority ≤ a.priority) := by
  induction l with
  | nil => simp [insert_callback]
  | cons x xs ih =>
    rcases List.pairwise_cons.mp hl with ⟨hx, hxs⟩
    by_cases h : c.priority ≤ x.priority
    · rw [show insert_callback c (x :: xs) = x :: insert_callback c xs by
        simp [insert_callback, h]]
      refine List.pairwise_cons.mpr ⟨?_, ih hxs⟩
      intro y hy
      rcases mem_insert_callback hy with rfl | hy
      · exact h
      · exact hx y hy
    · rw [show insert_callback c (x :: xs) = c :: x :: xs by
        simp [insert_callback, h]]
      refine List.pairwise_cons.mpr ⟨?_, hl⟩
      intro y hy
      rcases List.mem_cons.mp hy with rfl | hy
      · exact le_of_not_le h
      · exact (hx y hy).trans (le_of_not_le h)

/-- The strict ordering claim C3 needs for tie-breaks: a callback precedes
another when it has strictly higher priority, or equal priority and an
earlier registration index (stored as the payload). -/
def RegOrder (a b : CallbackWrapper Nat) : Prop :=
  b.priority < a.priority ∨ (a.priority = b.priority ∧ a.callback < b.callback)

/-- Insertion preserves `RegOrder` when the new callback's registration
index is larger than every index already present. -/
theorem insert_callback_stable (c : CallbackWrapper Nat)
    {l : List (CallbackWrapper Nat)} (hl : l.Pairwise RegOrder)
    (htag : ∀ x ∈ l, x.callback < c.callback) :
    (insert_callback c l).Pairwise RegOrder := by
  induction l with
  | nil => simp [insert_callback]
  | cons x xs ih =>
    rcases List.pairwise_cons.mp hl with ⟨hx, hxs⟩
    by_cases h : c.priority ≤ x.priority
    · have hrec := ih hxs (fun y hy => htag y (List.mem_cons_of_mem x hy))
      rw [show insert_callback c (x :: xs) = x :: insert_callback c xs by
        simp [insert_callback, h]]
      refine List.pairwise_cons.mpr ⟨?_, hrec⟩
      intro y hy
      rcases mem_insert_callback hy with rfl | hy
      · rcases lt_or_eq_of_le h with hlt | heq
        · exact Or.inl hlt
        · exact Or.inr ⟨heq.symm, htag x (List.mem_cons_self x xs)⟩
      · exact hx y hy
    · rw [show insert_callback c (x :: xs) = c :: x :: xs by
        simp [insert_callback, h]]
      refine List.pairwise_cons.mpr ⟨?_, hl⟩
      intro y hy
      rcases List.mem_cons.mp hy with rfl | hy
      · exact Or.inl (lt_of_not_le h)
      · refine Or.inl (lt_of_le_of_lt ?_ (lt_of_not_le h))
        rcases hx y hy with hlt | ⟨heq, _⟩
        · exact le_of_lt hlt
        · exact le_of_eq heq.symm

/-- Registration keeps the callback list a permutation of all registered
callbacks (fold form of `insert_callback_perm`). -/
theorem register_callbacks_perm_aux {α : Type} :
    ∀ (regs : List (Nat × α)) (acc : List (CallbackWrapper α)),
      (regs.foldl (fun vec pc => insert_callback ⟨pc.1, pc.2⟩ vec) acc).Perm
        ((regs.map fun pc => CallbackWrapper.mk pc.1 pc.2) ++ acc) := by
  intro regs
  induction regs with
  | nil => intro acc; simp
  | cons pc rest ih =>
    intro acc
    have h1 := ih (insert_callback ⟨pc.1, pc.2⟩ acc)
    have h2 : (insert_callback (CallbackWrapper.mk pc.1 pc.2) acc).Perm
        (CallbackWrapper.mk pc.1 pc.2 :: acc) := insert_callback_perm _ _
    have h3 := (h1.trans (h2.append_left (rest.map fun pc => CallbackWrapper.mk pc.1 pc.2)))
    have h4 : ((rest.map fun pc => CallbackWrapper.mk pc.1 pc.2) ++
          CallbackWrapper.mk pc.1 pc.2 :: acc).Perm
        (CallbackWrapper.mk pc.1 pc.2 :: ((rest.map fun pc => CallbackWrapper.mk pc.1 pc.2) ++ acc)) :=
      List.perm_middle
    simpa using h3.trans h4

/-- Registration keeps the callback list sorted by descending priority
(fold form of `insert_callback_sorted`). -/
theorem register_callbacks_sorted_aux {α : Type} :
    ∀ (regs : List (Nat × α)) (acc : List (CallbackWrapper α)),
      acc.Pairwise (fun a b => b.priority ≤ a.priority) →
      (regs.foldl (fun vec pc => insert_callback ⟨pc.1, pc.2⟩ vec) acc).Pairwise
        (fun a b => b.priority ≤ a.priority) := by
  intro regs
  induction regs with
  | nil => intro acc h; simpa using h
  | cons pc rest ih =>
    intro acc h
    exact ih _ (insert_callback_sorted _ h)

/-- Registration with increasing indices keeps the list ordered by
priority with registration order breaking ties. -/
theorem register_callbacks_stable_aux :
    ∀ (ps : List Nat) (n : Nat) (acc : List (CallbackWrapper Nat)),
      acc.Pairwise RegOrder → (∀ x ∈ acc, x.callback < n) →
      (((ps.enumFrom n).map fun ip => (ip.2, ip.1)).foldl
          (fun vec pc => insert_callback ⟨pc.1, pc.2⟩ vec) acc).Pairwise RegOrder := by
  intro ps
  induction ps with
  | nil => intro n acc h _; simpa using h
  | cons p rest ih =>
    intro n acc h htag
    have htag2 : ∀ x ∈ insert_callback ⟨p, n⟩ acc, x.callback < n + 1 := by
      intro x hx
      rcases mem_insert_callback hx with rfl | hx
      · exact Nat.lt_succ_self n
      · exact Nat.lt_succ_of_lt (htag x hx)
    have hres := ih (n + 1) (insert_callback ⟨p, n⟩ acc)
      (insert_callback_stable _ h htag) htag2
    simpa [List.enumFrom] using hres

/-- The dispatch loop's decision is the last executed callback's action,
falling back to the initial decision. -/
theorem dispatch_loop_eq_last_executed {α : Type} (call : α → InterruptResult) :
    ∀ (l : List (CallbackWrapper α)) (init : InterruptResultAction),
      dispatch_loop call l init =
        match (executed_callbacks call l).getLast? with
        | none => init
        | some c => (call c.callback).action := by
  intro l
  induction l with
  | nil => intro init; simp [dispatch_loop, executed_callbacks]
  | cons c rest ih =>
    intro init
    by_cases h : (call c.callback).skip_next
    · simp [dispatch_loop, executed_callbacks, h]
    · rw [show dispatch_loop call (c :: rest) init
          = dispatch_loop call rest (call c.callback).action by simp [dispatch_loop, h]]
      rw [ih]
      cases hrec : executed_callbacks call rest with
      | nil => simp [executed_callbacks, h, hrec]
      | cons e es =>
        cases hlast : (e :: es).getLast? with
        | none => simp at hlast
        | some d => simp [executed_callbacks, h, hrec, hlast]

/-- C3: for every interrupt vector, callbacks are kept (and hence invoked)
in order of descending priority with priority ties broken by registration
order, the decision starts as Panic for vectors below 32 and Resume
otherwise, every executed callback's action overwrites the decision,
iteration stops at the first callback that sets `skip_rest`, and the final
decision is the last executed callback's action, or the initial decision
when none ran. -/
theorem c3_dispatch_descending_priority_last_action :
    (∀ (α : Type) (regs : List (Nat × α)),
        (register_callbacks regs).Perm (regs.map fun pc => CallbackWrapper.mk pc.1 pc.2) ∧
        (register_callbacks regs).Pairwise (fun a b => b.priority ≤ a.priority)) ∧
    (∀ ps : List Nat,
        (register_callbacks ((ps.enum).map fun ip => (ip.2, ip.1))).Pairwise RegOrder) ∧
    (∀ (α : Type) (call : α → InterruptResult) (id : Nat)
        (l : List (CallbackWrapper α)),
        event_handler_action call id l =
          match (executed_callbacks call l).getLast? with
          | none =>
            if id < 32 then InterruptResultAction.Panic else InterruptResultAction.Resume
          | some c => (call c.callback).action) := by
  refine ⟨fun α regs => ⟨?_, ?_⟩, fun ps => ?_, fun α call id l => ?_⟩
  · simpa using register_callbacks_perm_aux regs []
  · exact register_callbacks_sorted_aux regs [] (by simp)
  · simpa [List.enum] using register_callbacks_stable_aux ps 0 [] (by simp) (by simp)
  · rw [show event_handler_action call id l
        = dispatch_loop call l
            (if id < 32 then InterruptResultAction.Panic else InterruptResultAction.Resume) by
        simp [event_handler_action, ERROR_MESSAGES]]
    exact dispatch_loop_eq_last_executed call l _

/-! ## Signal engine (src/process/signal/mod.rs) -/

/-- The register fields the signal engine touches (`Regs`; only `esp` and
`eip` are written by `execute_action`). -/
structure Regs where
  esp : Nat
  eip : Nat
deriving DecidableEq

/-- A user-installed signal action (`SigAction`, signal/mod.rs lines
113-126); the handler function pointer is modelled by its address. -/
structure SigAction where
  sa_handler : Option Nat
  sa_mask : Nat
  sa_flags : Int
deriving DecidableEq

/-- The three-way handling choice for a signal (`SignalHandler`,
signal/mod.rs lines 130-137). -/
inductive SignalHandler
  | Ignore
  | Default
  | Handler (action : SigAction)
deriving DecidableEq

/-- The action to perform for a signal (`SignalAction`, signal/mod.rs
lines 33-44). -/
inductive SignalAction
  | Terminate
  | Abort
  | Ignore
  | Stop
  | Continue
deriving DecidableEq

/-- Signal types (`Signal`, signal/mod.rs lines 174-233). -/
inductive Signal
  | SIGABRT
  | SIGALRM
  | SIGBUS
  | SIGCHLD
  | SIGCONT
  | SIGFPE
  | SIGHUP
  | SIGILL
  | SIGINT
  | SIGKILL
  | SIGPIPE
  | SIGQUIT
  | SIGSEGV
  | SIGSTOP
  | SIGTERM
  | SIGTSTP
  | SIGTTIN
  | SIGTTOU
  | SIGUSR1
  | SIGUSR2
  | SIGPOLL
  | SIGPROF
  | SIGSYS
  | SIGTRAP
  | SIGURG
  | SIGVTALRM
  | SIGXCPU
  | SIGXFSZ
  | SIGWINCH
deriving DecidableEq

/-- `Signal::get_id` (signal/mod.rs lines 275-307). -/
def Signal.get_id : Signal → Nat
  | .SIGABRT => 1
  | .SIGALRM => 2
  | .SIGBUS => 3
  | .SIGCHLD => 4
  | .SIGCONT => 5
  | .SIGFPE => 6
  | .SIGHUP => 7
  | .SIGILL => 8
  | .SIGINT => 9
  | .SIGKILL => 10
  | .SIGPIPE => 11
  | .SIGQUIT => 12
  | .SIGSEGV => 13
  | .SIGSTOP => 14
  | .SIGTERM => 15
  | .SIGTSTP => 16
  | .SIGTTIN => 17
  | .SIGTTOU => 18
  | .SIGUSR1 => 19
  | .SIGUSR2 => 20
  | .SIGPOLL => 21
  | .SIGPROF => 22
  | .SIGSYS => 23
  | .SIGTRAP => 24
  | .SIGURG => 25
  | .SIGVTALRM => 26
  | .SIGXCPU => 27
  | .SIGXFSZ => 28
  | .SIGWINCH => 29

/-- `Signal::get_default_action` (signal/mod.rs lines 310-342). -/
def Signal.get_default_action : Signal → SignalAction
  | .SIGABRT => .Abort
  | .SIGALRM => .Terminate
  | .SIGBUS => .Abort
  | .SIGCHLD => .Ignore
  | .SIGCONT => .Continue
  | .SIGFPE => .Abort
  | .SIGHUP => .Terminate
  | .SIGILL => .Abort
  | .SIGINT => .Terminate
  | .SIGKILL => .Terminate
  | .SIGPIPE => .Terminate
  | .SIGQUIT => .Abort
  | .SIGSEGV => .Abort
  | .SIGSTOP => .Stop
  | .SIGTERM => .Terminate
  | .SIGTSTP => .Stop
  | .SIGTTIN => .Stop
  | .SIGTTOU => .Stop
  | .SIGUSR1 => .Terminate
  | .SIGUSR2 => .Terminate
  | .SIGPOLL => .Terminate
  | .SIGPROF => .Terminate
  | .SIGSYS => .Abort
  | .SIGTRAP => .Abort
  | .SIGURG => .Ignore
  | .SIGVTALRM => .Terminate
  | .SIGXCPU => .Abort
  | .SIGXFSZ => .Abort
  | .SIGWINCH => .Ignore

/-- `Signal::can_catch` (signal/mod.rs lines 345-347). -/
def Signal.can_catch (s : Signal) : Bool :=
  match s with
  | .SIGKILL | .SIGSEGV | .SIGSTOP | .SIGSYS => false
  | _ => true

/-- The signal-relevant attributes of a process.  The `Process` structure
itself lives in the missing `process/mod.rs`; these are the fields
`execute_action` reads or writes, per spec section 4.D (handler table,
pending set, pre-handler snapshot, handling flag); `saved` also records
the saved signal, as `signal_save` receives it. -/
structure SigProcess where
  state : PState
  exit_code : Nat
  init : Bool
  is_handling : Bool
  pending : Nat → Bool
  handlers : Nat → SignalHandler
  waitable : Option Nat
  regs : Regs
  saved : Option (Regs × Nat)
  signal_stack : Nat

/-- Modelled from the spec: the address of the user-mode signal trampoline
stub (spec section 6); its concrete value is irrelevant to the claims. -/
def signal_trampoline_addr : Nat := 4096

/-- `Signal::execute_action` (signal/mod.rs lines 353-459): clear the
pending bit; drop on Zombie; resolve the handler (uncatchable signals and
`no_handler` force the default); mark stop/continue signals waitable; then
run the Ignore / Default / user-handler branch.  `Process::exit` (missing
`process/mod.rs`) is modelled from the spec as setting the exit code and
the Zombie state; the write of `[signo, handler]` to the user stack is
outside the modelled state. -/
def Signal.execute_action (sig : Signal) (process : SigProcess) (no_handler : Bool) :
    SigProcess :=
  let process :=
    { process with pending := fun n => if n = sig.get_id then false else process.pending n }
  let process_state := process.state
  if process_state = PState.Zombie then process
  else
    let handler :=
      if (!sig.can_catch || no_handler) then SignalHandler.Default
      else process.handlers sig.get_id
    let process :=
      if handler ≠ SignalHandler.Ignore ∧
          (sig.get_default_action = SignalAction.Stop ∨
            sig.get_default_action = SignalAction.Continue) then
        { process with waitable := some sig.get_id }
      else process
    match handler with
    | SignalHandler.Ignore => process
    | SignalHandler.Default =>
      if sig.can_catch && process.init then process
      else
        let exit_code := 128 + sig.get_id
        match sig.get_default_action with
        | SignalAction.Terminate | SignalAction.Abort =>
          { process with exit_code := exit_code, state := PState.Zombie }
        | SignalAction.Ignore => process
        | SignalAction.Stop =>
          if process_state = PState.Running then { process with state := PState.Stopped }
          else process
        | SignalAction.Continue =>
          if process_state = PState.Stopped then { process with state := PState.Running }
          else process
    | SignalHandler.Handler _action =>
      if !process.is_handling then
        let signal_esp := process.signal_stack - 8
        { process with
            saved := some (process.regs, sig.get_id)
            is_handling := true
            regs := { process.regs with esp := signal_esp, eip := signal_trampoline_addr } }
      else process

/-- C9: when the resolved action for a delivered signal is the default,
delivery to a Zombie process changes neither state nor exit code; on the
init process a catchable signal leaves them unchanged as well; otherwise
Terminate and Abort set the exit code to 128 plus the signal number and
make the process a Zombie, Stop moves Running to Stopped (and nothing
else), and Continue moves Stopped to Running (and nothing else). -/
theorem c9_default_action_semantics (sig : Signal) (process : SigProcess)
    (no_handler : Bool)
    (hdef : sig.can_catch = true → no_handler = false →
      process.handlers sig.get_id = SignalHandler.Default) :
    (process.state = PState.Zombie →
      (sig.execute_action process no_handler).state = process.state ∧
      (sig.execute_action process no_handler).exit_code = process.exit_code) ∧
    (process.state ≠ PState.Zombie → process.init = true → sig.can_catch = true →
      (sig.execute_action process no_handler).state = process.state ∧
      (sig.execute_action process no_handler).exit_code = process.exit_code) ∧
    (process.state ≠ PState.Zombie → (process.init = false ∨ sig.can_catch = false) →
      ((sig.get_default_action = SignalAction.Terminate ∨
          sig.get_default_action = SignalAction.Abort) →
        (sig.execute_action process no_handler).exit_code = 128 + sig.get_id ∧
        (sig.execute_action process no_handler).state = PState.Zombie) ∧
      (sig.get_default_action = SignalAction.Stop →
        (sig.execute_action process no_handler).state =
          (if process.state = PState.Running then PState.Stopped else process.state)) ∧
      (sig.get_default_action = SignalAction.Continue →
        (sig.execute_action process no_handler).state =
          (if process.state = PState.Stopped then PState.Running else process.state))) := by
  refine ⟨?_, ?_, ?_⟩
  · intro hz
    simp [Signal.execute_action, hz]
  · intro hnz hinit hcc
    cases hnv : no_handler with
    | true => simp [Signal.execute_action, apply_ite, hnz, hinit, hcc]
    | false =>
      simp [Signal.execute_action, apply_ite, hnz, hinit, hcc, hdef hcc hnv]
  · intro hnz hni
    cases hcv : sig.can_catch with
    | false =>
      refine ⟨?_, ?_, ?_⟩
      · intro hact
        rcases hact with h | h <;>
          simp [Signal.execute_action, apply_ite, hnz, hcv, h]
      · intro hact
        simp [Signal.execute_action, apply_ite, hnz, hcv, hact]
        split <;> tauto
      · intro hact
        simp [Signal.execute_action, apply_ite, hnz, hcv, hact]
        split <;> tauto
    | true =>
      have hinit_f : process.init = false := by
        rcases hni with hi | hi
        · exact hi
        · rw [hcv] at hi; exact absurd hi (by simp)
      cases hnv : no_handler with
      | true =>
        refine ⟨?_, ?_, ?_⟩
        · intro hact
          rcases hact with h | h <;>
            simp [Signal.execute_action, apply_ite, hnz, hcv, hinit_f, h]
        · intro hact
          simp [Signal.execute_action, apply_ite, hnz, hcv, hinit_f, hact]
          split <;> tauto
        · intro hact
          simp [Signal.execute_action, apply_ite, hnz, hcv, hinit_f, hact]
          split <;> tauto
      | false =>
        have hD := hdef hcv hnv
        refine ⟨?_, ?_, ?_⟩
        · intro hact
          rcases hact with h | h <;>
            simp [Signal.execute_action, apply_ite, hnz, hcv, hnv, hinit_f, hD, h]
        · intro hact
          simp [Signal.execute_action, apply_ite, hnz, hcv, hnv, hinit_f, hD, hact]
          split <;> tauto
        · intro hact
          simp [Signal.execute_action, apply_ite, hnz, hcv, hnv, hinit_f, hD, hact]
          split <;> tauto

/-! ## Ext2 inode engine (src/file/fs/ext2/inode.rs) -/

/-- POSIX-style error codes surfaced by the modelled ext2 operations
(`errno` constants used by inode.rs). -/
inductive Errno
  | EINVAL
  | ENAMETOOLONG
  | ENOSPC
  | EIO
deriving DecidableEq

/-- Modelled from the spec: the `WRITE_REQUIRED_64_BITS` required-feature
flag of the missing `ext2/mod.rs`; only its role as a designated bit in
`write_required_features` matters (spec section 6). -/
def WRITE_REQUIRED_64_BITS : Nat := 2

/-- Modelled from the spec: the superblock adapter of spec section 4.F
(the `Superblock` structure lives in the missing `ext2/mod.rs`): block
size, version and feature words, and the block-usage bitmap consulted by
allocation. -/
structure Superblock where
  major_version : Nat
  write_required_features : Nat
  block_size : Nat
  total_blocks : Nat
  used : Nat → Bool

/-- `Superblock::get_block_size` (spec section 4.F). -/
def Superblock.get_block_size (sb : Superblock) : Nat := sb.block_size

/-- Modelled from the spec: `get_free_block` returns a free block from the
bitmap (block number 0 is reserved to mean "unallocated"), or NoSpace on
exhaustion. -/
def Superblock.get_free_block (sb : Superblock) : Except Errno Nat :=
  match (List.range sb.total_blocks).find? (fun b => 0 < b && !sb.used b) with
  | some b => Except.ok b
  | none => Except.error Errno.ENOSPC

/-- Modelled from the spec: `mark_block_used` sets the block's bitmap bit. -/
def Superblock.mark_block_used (sb : Superblock) (blk : Nat) : Superblock :=
  { sb with used := fun b => if b = blk then true else sb.used b }

/-- Modelled from the spec: `free_block` clears the block's bitmap bit. -/
def Superblock.free_block (sb : Superblock) (blk : Nat) : Superblock :=
  { sb with used := fun b => if b = blk then false else sb.used b }

/-- The I/O device as a flat byte store: `d a` is the byte at absolute
offset `a` (the `IO` trait's reads and writes are byte-addressed). -/
def Disk := Nat → Nat

/-- A little-endian `u32` read at an absolute byte offset
(`read::<u32>`). -/
def readU32 (d : Disk) (a : Nat) : Nat :=
  d a + 256 * d (a + 1) + 65536 * d (a + 2) + 16777216 * d (a + 3)

/-- Writing a byte list at an absolute offset. -/
def writeBytes (d : Disk) (a : Nat) (bytes : List Nat) : Disk :=
  fun x => if a ≤ x ∧ x < a + bytes.length then bytes.getD (x - a) 0 else d x

/-- The little-endian bytes of a `u32`. -/
def u32Bytes (v : Nat) : List Nat :=
  [v % 256, v / 256 % 256, v / 65536 % 256, v / 16777216 % 256]

/-- A little-endian `u32` write at an absolute byte offset
(`write::<u32>`). -/
def writeU32 (d : Disk) (a : Nat) (v : Nat) : Disk :=
  writeBytes d a (u32Bytes v)

/-- Reading a whole block into a byte buffer (`read_block`, spec
section 4.F). -/
def read_block (d : Disk) (blk_size blk : Nat) : Nat → Nat :=
  fun j => d (blk * blk_size + j)

/-- Writing a whole block from a byte buffer (`write_block`, spec
section 4.F). -/
def write_block (d : Disk) (blk_size blk : Nat) (buf : Nat → Nat) : Disk :=
  fun a => if blk * blk_size ≤ a ∧ a < blk * blk_size + blk_size then buf (a - blk * blk_size)
    else d a

/-- Modelled from the spec: `util::math::ceil_division` is not under src;
it is the rounded-up quotient (used for the 512-byte sector count per
block). -/
def ceil_division (a b : Nat) : Nat := (a + b - 1) / b

/-- The maximum number of direct blocks of an inode
(`DIRECT_BLOCKS_COUNT`, inode.rs line 30). -/
def DIRECT_BLOCKS_COUNT : Nat := 12

/-- The on-disk inode, restricted to the fields the modelled operations
read or write (`Ext2INode`, inode.rs lines 118-161; timestamps, uid/gid
and the auxiliary fields are never consulted by the claims). -/
structure Ext2INode where
  mode : Nat
  size_low : Nat
  used_sectors : Nat
  direct_block_ptrs : List Nat
  singly_indirect_block_ptr : Nat
  doubly_indirect_block_ptr : Nat
  triply_indirect_block_ptr : Nat
  size_high : Nat

/-- `Ext2INode::get_permissions` (inode.rs lines 239-241). -/
def Ext2INode.get_permissions (ino : Ext2INode) : Nat :=
  ino.mode &&& 0x0fff

/-- `Ext2INode::set_permissions` (inode.rs lines 244-246): the new
permission bits are OR-ed into `mode`. -/
def Ext2INode.set_permissions (ino : Ext2INode) (perm : Nat) : Ext2INode :=
  { ino with mode := ino.mode ||| (perm &&& 0x0fff) }

/-- `Ext2INode::get_size` (inode.rs lines 250-259). -/
def Ext2INode.get_size (ino : Ext2INode) (sb : Superblock) : Nat :=
  if sb.major_version ≥ 1 ∧ sb.write_required_features &&& WRITE_REQUIRED_64_BITS ≠ 0 then
    (ino.size_high <<< 32) ||| ino.size_low
  else
    ino.size_low

/-- `Ext2INode::set_size` (inode.rs lines 264-274): with the 64-bit
feature, both halves are masked with `0xffff` before being stored;
otherwise the size is stored as a `u32`. -/
def Ext2INode.set_size (ino : Ext2INode) (sb : Superblock) (size : Nat) : Ext2INode :=
  if sb.major_version ≥ 1 ∧ sb.write_required_features &&& WRITE_REQUIRED_64_BITS ≠ 0 then
    { ino with size_high := (size >>> 32) &&& 0xffff, size_low := size &&& 0xffff }
  else
    { ino with size_low := size % 4294967296 }

/-- `Ext2INode::blk_offset_to_option` (inode.rs lines 278-284). -/
def blk_offset_to_option (blk : Nat) : Option Nat :=
  if blk ≠ 0 then some blk else none

/-- `Ext2INode::get_content_blk_indirections_count` (inode.rs lines
289-299): the boundary of the doubly-indirect range is
`DIRECT_BLOCKS_COUNT + entries_per_blk * entries_per_blk`. -/
def get_content_blk_indirections_count (off entries_per_blk : Nat) : Nat :=
  if off < DIRECT_BLOCKS_COUNT then 0
  else if off < DIRECT_BLOCKS_COUNT + entries_per_blk then 1
  else if off < DIRECT_BLOCKS_COUNT + entries_per_blk * entries_per_blk then 2
  else 3

/-- `Ext2INode::resolve_indirections` (inode.rs lines 308-330): follow `n`
levels of indirection blocks from `begin`, at each step dividing the
offset by the per-entry block span. -/
def resolve_indirections (disk : Disk) (blk_size : Nat) :
    Nat → Nat → Nat → Option Nat
  | 0, begin_blk, _off => blk_offset_to_option begin_blk
  | n + 1, begin_blk, off =>
    let entries_per_blk := blk_size / 4
    let blk_per_blk := entries_per_blk ^ n
    let inner_index := off / blk_per_blk
    let byte_off := begin_blk * blk_size + inner_index * 4
    let b := readU32 disk byte_off
    let next_off := off - blk_per_blk * inner_index
    resolve_indirections disk blk_size n b next_off

/-- `Ext2INode::get_content_block_off` (inode.rs lines 337-374): the inner
offset subtracted for the triply-indirect level is
`entries_per_blk * entries_per_blk`. -/
def Ext2INode.get_content_block_off (ino : Ext2INode) (sb : Superblock) (disk : Disk)
    (i : Nat) : Option Nat :=
  let blk_size := sb.get_block_size
  let entries_per_blk := blk_size / 4
  let level := get_content_blk_indirections_count i entries_per_blk
  if level = 0 then blk_offset_to_option (ino.direct_block_ptrs.getD i 0)
  else
    let begin_id :=
      match level with
      | 1 => ino.singly_indirect_block_ptr
      | 2 => ino.doubly_indirect_block_ptr
      | _ => ino.triply_indirect_block_ptr
    match blk_offset_to_option begin_id with
    | some begin_blk =>
      let target := i - DIRECT_BLOCKS_COUNT -
        (match level with
         | 1 => 0
         | 2 => entries_per_blk
         | _ => entries_per_blk * entries_per_blk)
      resolve_indirections disk blk_size level begin_blk target
    | none => none

/-- The indirection level the spec's layout assigns (spec sections 3 and
4.E): direct below D, singly below D+E, doubly below D+E+E^2 and triply
beyond, with D = 12 and E the number of entries per block. -/
def spec_indirections_count (off entries_per_blk : Nat) : Nat :=
  if off < 12 then 0
  else if off < 12 + entries_per_blk then 1
  else if off < 12 + entries_per_blk + entries_per_blk * entries_per_blk then 2
  else 3

/-- Logical-to-physical translation as spec section 4.E words it: the
doubly-indirect walk starts at inner offset `i - D - E` and the
triply-indirect walk at `i - D - E - E^2`. -/
def spec_get_content_block_off (ino : Ext2INode) (sb : Superblock) (disk : Disk)
    (i : Nat) : Option Nat :=
  let entries_per_blk := sb.get_block_size / 4
  if i < 12 then blk_offset_to_option (ino.direct_block_ptrs.getD i 0)
  else if i < 12 + entries_per_blk then
    match blk_offset_to_option ino.singly_indirect_block_ptr with
    | some b => resolve_indirections disk sb.get_block_size 1 b (i - 12)
    | none => none
  else if i < 12 + entries_per_blk + entries_per_blk * entries_per_blk then
    match blk_offset_to_option ino.doubly_indirect_block_ptr with
    | some b => resolve_indirections disk sb.get_block_size 2 b (i - 12 - entries_per_blk)
    | none => none
  else
    match blk_offset_to_option ino.triply_indirect_block_ptr with
    | some b =>
      resolve_indirections disk sb.get_block_size 3 b
        (i - 12 - entries_per_blk - entries_per_blk * entries_per_blk)
    | none => none

/-- C10: `set_permissions` OR-s the masked permission bits into `mode`, so
reading the permissions back yields the old permissions OR `p &&& 0o7777`,
and no permission bit that was set is ever cleared. -/
theorem c10_set_permissions_only_adds_bits (ino : Ext2INode) (p : Nat) :
    (ino.set_permissions p).get_permissions = ino.get_permissions ||| (p &&& 0o7777) ∧
    ∀ i, (ino.get_permissions).testBit i = true →
      ((ino.set_permissions p).get_permissions).testBit i = true := by
  have hmain : (ino.set_permissions p).get_permissions
      = ino.get_permissions ||| (p &&& 0o7777) := by
    show (ino.mode ||| (p &&& 0x0fff)) &&& 0x0fff
      = (ino.mode &&& 0x0fff) ||| (p &&& 0o7777)
    apply Nat.eq_of_testBit_eq
    intro i
    simp only [Nat.testBit_lor, Nat.testBit_land]
    cases ino.mode.testBit i <;> cases (p : Nat).testBit i <;>
      cases (0x0fff : Nat).testBit i <;> rfl
  refine ⟨hmain, fun i h => ?_⟩
  rw [hmain, Nat.testBit_lor, h, Bool.true_or]

/-- The 64-bit superblock used by the size claims: major version 1 with
the write-required 64-bit feature set. -/
def sb64 : Superblock :=
  { major_version := 1
    write_required_features := WRITE_REQUIRED_64_BITS
    block_size := 1024
    total_blocks := 16
    used := fun _ => false }

/-- An empty regular-file inode used as the base of several concrete
states. -/
def baseInode : Ext2INode :=
  { mode := 0x8000
    size_low := 0
    used_sectors := 0
    direct_block_ptrs := List.replicate 12 0
    singly_indirect_block_ptr := 0
    doubly_indirect_block_ptr := 0
    triply_indirect_block_ptr := 0
    size_high := 0 }

/-- C8: the claim states that `set_size` then `get_size` round-trips every
representable 64-bit size on a 64-bit-feature filesystem.  Because
`set_size` masks the low word with `0xffff` (and the high word likewise),
setting the size to 65536 reads back as 0. -/
theorem c8_set_size_get_size_truncates :
    ((baseInode.set_size sb64 65536).get_size sb64) = 0 ∧ (65536 : Nat) ≠ 0 ∧
    ((baseInode.set_size sb64 65535).get_size sb64) = 65535 := by
  refine ⟨?_, by decide, ?_⟩ <;> rfl

/-- The superblock of the translation scenario: block size 1024, hence 256
entries per indirection block. -/
def sbC4 : Superblock :=
  { major_version := 1
    write_required_features := 0
    block_size := 1024
    total_blocks := 16
    used := fun b => b < 10 }

/-- An inode whose doubly-indirect tree is populated and whose
triply-indirect pointer is unallocated. -/
def inodeC4 : Ext2INode :=
  { baseInode with size_low := 67133440, doubly_indirect_block_ptr := 7 }

/-- A disk on which the doubly-indirect tree of `inodeC4` maps the logical
block 65548 (per the spec's layout) to physical block 42: entry 255 of
block 7 points to block 8, whose entry 0 is 42. -/
def diskC4 : Disk := fun a =>
  if a = 7 * 1024 + 255 * 4 then 8
  else if a = 8 * 1024 then 42
  else 0

/-- C4: the claim assigns logical index i = D + E^2 = 65548 (with E = 256)
to the doubly-indirect range [D+E, D+E+E^2) with inner offset i-D-E, but
the code's boundary test is `i < D + E^2`, so it walks the triply-indirect
pointer with inner offset i-D-E^2 instead: on a disk whose doubly tree
maps 65548 to block 42, the code reports a hole. -/
theorem c4_translation_uses_wrong_level :
    get_content_blk_indirections_count 65548 256 = 3 ∧
    spec_indirections_count 65548 256 = 2 ∧
    inodeC4.get_content_block_off sbC4 diskC4 65548 = none ∧
    spec_get_content_block_off inodeC4 sbC4 diskC4 65548 = some 42 := by
  refine ⟨by decide, by decide, ?_, ?_⟩ <;> rfl

/-- The mutable state threaded through the inode operations: the inode
itself, the superblock (with its block bitmap) and the byte-addressed
device. -/
structure Ext2State where
  inode : Ext2INode
  sb : Superblock
  disk : Disk

/-- Copying `len` bytes from `src` (starting at `srcOff`) into `dst`
(starting at `dstOff`); models `copy_nonoverlapping`. -/
def copyRange (dst : Nat → Nat) (dstOff : Nat) (src : Nat → Nat) (srcOff len : Nat) :
    Nat → Nat :=
  fun j => if dstOff ≤ j ∧ j < dstOff + len then src (srcOff + (j - dstOff)) else dst j

/-- Zero-filling `len` bytes of `dst` starting at `off`; models
`buff[a..b].fill(0)`. -/
def fillZero (dst : Nat → Nat) (off len : Nat) : Nat → Nat :=
  fun j => if off ≤ j ∧ j < off + len then 0 else dst j

/-- The copy loop of `Ext2INode::read_content` (inode.rs lines 637-658).
The loop advances `i` by at least one byte per iteration whenever the
block size is positive, so `buflen` iterations always suffice; the `fuel`
argument makes the recursion structural. -/
def read_content_loop (ino : Ext2INode) (sb : Superblock) (disk : Disk)
    (off maxlen buflen : Nat) : Nat → Nat → (Nat → Nat) → Nat × (Nat → Nat)
  | 0, i, buff => (i, buff)
  | fuel + 1, i, buff =>
    if i < maxlen then
      let blk_size := sb.get_block_size
      let blk := (off + i) / blk_size
      let blk_inner_off := (off + i) % blk_size
      let len := min (buflen - i) (blk_size - blk_inner_off)
      let buff2 :=
        match ino.get_content_block_off sb disk blk with
        | some blk_off => copyRange buff i (read_block disk blk_size blk_off) blk_inner_off len
        | none => fillZero buff i len
      read_content_loop ino sb disk off maxlen buflen fuel (i + len) buff2
    else (i, buff)

/-- `Ext2INode::read_content` (inode.rs lines 627-661): fails with
InvalidArgument when `off > size`, otherwise copies block slices (or
zero-fills holes) while `i < min(buflen, size - off)` and returns the byte
count together with the buffer. -/
def Ext2INode.read_content (ino : Ext2INode) (sb : Superblock) (disk : Disk)
    (off buflen : Nat) (buff : Nat → Nat) : Except Errno (Nat × (Nat → Nat)) :=
  let size := ino.get_size sb
  if off > size then Except.error Errno.EINVAL
  else
    let maxlen := min buflen (size - off)
    let r := read_content_loop ino sb disk off maxlen buflen buflen 0 buff
    Except.ok (min r.1 maxlen, r.2)

/-- `Ext2INode::indirections_alloc` (inode.rs lines 383-414): walk `n`
levels, allocating (and linking into the parent entry) any indirection
block whose entry is still zero. -/
def indirections_alloc : Ext2State → Nat → Nat → Nat → Except Errno (Nat × Ext2State)
  | st, 0, begin_blk, _off => Except.ok (begin_blk, st)
  | st, n + 1, begin_blk, off =>
    let blk_size := st.sb.get_block_size
    let entries_per_blk := blk_size / 4
    let blk_per_blk := entries_per_blk ^ n
    let inner_index := off / blk_per_blk
    let byte_off := begin_blk * blk_size + inner_index * 4
    let b := readU32 st.disk byte_off
    let next_off := off - blk_per_blk * inner_index
    if b = 0 then
      match st.sb.get_free_block with
      | Except.error e => Except.error e
      | Except.ok blk =>
        let sb := st.sb.mark_block_used blk
        let inode := { st.inode with
          used_sectors := st.inode.used_sectors + ceil_division blk_size 512 }
        let disk := writeU32 st.disk byte_off blk
        indirections_alloc { inode := inode, sb := sb, disk := disk } n blk next_off
    else
      indirections_alloc st n b next_off

/-- `Ext2INode::alloc_content_block` (inode.rs lines 422-479): allocate
the data block for logical index `i`, creating the root indirection block
first when its pointer is zero. -/
def alloc_content_block (st : Ext2State) (i : Nat) : Except Errno (Nat × Ext2State) :=
  let blk_size := st.sb.get_block_size
  let entries_per_blk := blk_size / 4
  let level := get_content_blk_indirections_count i entries_per_blk
  if level = 0 then
    match st.sb.get_free_block with
    | Except.error e => Except.error e
    | Except.ok blk =>
      let inode := { st.inode with
        direct_block_ptrs := st.inode.direct_block_ptrs.set i blk }
      let sb := st.sb.mark_block_used blk
      let inode := { inode with
        used_sectors := inode.used_sectors + ceil_division blk_size 512 }
      Except.ok (blk, { st with inode := inode, sb := sb })
  else
    let begin_id :=
      match level with
      | 1 => st.inode.singly_indirect_block_ptr
      | 2 => st.inode.doubly_indirect_block_ptr
      | _ => st.inode.triply_indirect_block_ptr
    let target := i - DIRECT_BLOCKS_COUNT -
      (match level with
       | 1 => 0
       | 2 => entries_per_blk
       | _ => entries_per_blk * entries_per_blk)
    match blk_offset_to_option begin_id with
    | some begin_blk => indirections_alloc st level begin_blk target
    | none =>
      match st.sb.get_free_block with
      | Except.error e => Except.error e
      | Except.ok begin_blk =>
        let inode :=
          match level with
          | 1 => { st.inode with singly_indirect_block_ptr := begin_blk }
          | 2 => { st.inode with doubly_indirect_block_ptr := begin_blk }
          | _ => { st.inode with triply_indirect_block_ptr := begin_blk }
        let sb := st.sb.mark_block_used begin_blk
        let inode := { inode with
          used_sectors := inode.used_sectors + ceil_division blk_size 512 }
        indirections_alloc { inode := inode, sb := sb, disk := st.disk } level begin_blk target

/-- The write loop of `Ext2INode::write_content` (inode.rs lines 679-708):
translate the block, read it (or zero a fresh buffer and allocate), patch
the slice and write the block back.  As in `read_content_loop`, `buflen`
units of fuel make the recursion structural. -/
def write_content_loop (off : Nat) (buff : Nat → Nat) (buflen : Nat) :
    Nat → Nat → Ext2State → Except Errno Ext2State
  | 0, _i, st => Except.ok st
  | fuel + 1, i, st =>
    if i < buflen then
      let blk_size := st.sb.get_block_size
      let blk := (off + i) / blk_size
      let blk_inner_off := (off + i) % blk_size
      let step : Except Errno (Nat × (Nat → Nat) × Ext2State) :=
        match st.inode.get_content_block_off st.sb st.disk blk with
        | some blk_off => Except.ok (blk_off, read_block st.disk blk_size blk_off, st)
        | none =>
          match alloc_content_block st blk with
          | Except.error e => Except.error e
          | Except.ok (blk_off, st2) => Except.ok (blk_off, fun _ => 0, st2)
      match step with
      | Except.error e => Except.error e
      | Except.ok (blk_off, blk_buff, st2) =>
        let len := min (buflen - i) (blk_size - blk_inner_off)
        let blk_buff2 := copyRange blk_buff blk_inner_off buff i len
        let disk2 := write_block st2.disk blk_size blk_off blk_buff2
        write_content_loop off buff buflen fuel (i + len) { st2 with disk := disk2 }
    else Except.ok st

/-- `Ext2INode::write_content` (inode.rs lines 669-713): fails with
InvalidArgument when `off > size`; after the write loop the size becomes
`max(off + buflen, old size)` through `set_size`. -/
def write_content (st : Ext2State) (off : Nat) (buff : Nat → Nat) (buflen : Nat) :
    Except Errno Ext2State :=
  let curr_size := st.inode.get_size st.sb
  if off > curr_size then Except.error Errno.EINVAL
  else
    match write_content_loop off buff buflen buflen 0 st with
    | Except.error e => Except.error e
    | Except.ok st2 =>
      let new_size := max (off + buflen) curr_size
      Except.ok { st2 with inode := st2.inode.set_size st2.sb new_size }

/-- `Ext2INode::is_blk_empty` (inode.rs lines 482-507): the usize-chunk
scan plus the tail scan check exactly that every byte of the block is
zero. -/
def is_blk_empty (blk : Nat → Nat) (blk_size : Nat) : Bool :=
  (List.range blk_size).all (fun j => blk j = 0)

/-- `Ext2INode::indirections_free` (inode.rs lines 516-554): free the leaf
block unconditionally, then free each enclosing indirection block that has
become entirely zero, reporting whether the level's block was freed. -/
def indirections_free : Ext2State → Nat → Nat → Nat → Except Errno (Bool × Ext2State)
  | st, 0, begin_blk, _off =>
    Except.ok (true, { st with sb := st.sb.free_block begin_blk })
  | st, n + 1, begin_blk, off =>
    let blk_size := st.sb.get_block_size
    let entries_per_blk := blk_size / 4
    let blk_per_blk := entries_per_blk ^ n
    let inner_index := off / blk_per_blk
    let byte_off := begin_blk * blk_size + inner_index * 4
    let b := readU32 st.disk byte_off
    let next_off := off - blk_per_blk * inner_index
    match indirections_free st n b next_off with
    | Except.error e => Except.error e
    | Except.ok (freed, st2) =>
      if freed then
        let buff := read_block st2.disk blk_size begin_blk
        if is_blk_empty buff blk_size then
          let sb2 := st2.sb.free_block begin_blk
          let inode2 := { st2.inode with
            used_sectors := st2.inode.used_sectors - ceil_division blk_size 512 }
          Except.ok (true, { st2 with sb := sb2, inode := inode2 })
        else Except.ok (false, st2)
      else Except.ok (false, st2)

/-- `Ext2INode::free_content_block` (inode.rs lines 561-619): for a direct
index the pointer's block is freed and `used_sectors` decremented without
checking the pointer for zero; for indirect indices a zero root pointer is
skipped, and an emptied root indirection block is freed and its inode
pointer cleared. -/
def free_content_block (st : Ext2State) (i : Nat) : Except Errno Ext2State :=
  let blk_size := st.sb.get_block_size
  let entries_per_blk := blk_size / 4
  let level := get_content_blk_indirections_count i entries_per_blk
  if level = 0 then
    let sb := st.sb.free_block (st.inode.direct_block_ptrs.getD i 0)
    let inode := { st.inode with
      direct_block_ptrs := st.inode.direct_block_ptrs.set i 0 }
    let inode := { inode with
      used_sectors := inode.used_sectors - ceil_division blk_size 512 }
    Except.ok { st with sb := sb, inode := inode }
  else
    let begin_id :=
      match level with
      | 1 => st.inode.singly_indirect_block_ptr
      | 2 => st.inode.doubly_indirect_block_ptr
      | _ => st.inode.triply_indirect_block_ptr
    let target := i - DIRECT_BLOCKS_COUNT -
      (match level with
       | 1 => 0
       | 2 => entries_per_blk
       | _ => entries_per_blk * entries_per_blk)
    match blk_offset_to_option begin_id with
    | some begin_blk =>
      match indirections_free st level begin_blk target with
      | Except.error e => Except.error e
      | Except.ok (empty, st2) =>
        if empty then
          let sb := st2.sb.free_block begin_blk
          let inode :=
            match level with
            | 1 => { st2.inode with singly_indirect_block_ptr := 0 }
            | 2 => { st2.inode with doubly_indirect_block_ptr := 0 }
            | _ => { st2.inode with triply_indirect_block_ptr := 0 }
          let inode := { inode with
            used_sectors := inode.used_sectors - ceil_division blk_size 512 }
          Except.ok { st2 with sb := sb, inode := inode }
        else Except.ok st2
    | none => Except.ok st

/-- Projecting a numeric observation out of a fallible state result, for
stating concrete evaluations. -/
def okProj (f : Ext2State → Nat) : Except Errno Ext2State → Option Nat
  | Except.ok st => some (f st)
  | Except.error _ => none

/-- The 64-bit-feature superblock of the write-size scenario; the large
block size keeps the written region inside the first direct block. -/
def sbC5 : Superblock :=
  { major_version := 1
    write_required_features := WRITE_REQUIRED_64_BITS
    block_size := 65536
    total_blocks := 8
    used := fun b => b < 6 }

/-- A file of size 65535 whose single content block is block 5. -/
def inodeC5 : Ext2INode :=
  { baseInode with
    size_low := 65535
    used_sectors := 128
    direct_block_ptrs := 5 :: List.replicate 11 0 }

/-- The write-size scenario's initial state, over an all-zero disk. -/
def stC5 : Ext2State := { inode := inodeC5, sb := sbC5, disk := fun _ => 0 }

/-- C5: the claim states that a successful `write_content` leaves the size
equal to `max(old size, off + buflen)`.  Writing one byte at offset
65535 = size succeeds, so the new size should be 65536, but `set_size`
masks the stored low word with `0xffff` on a 64-bit-feature filesystem and
`get_size` afterwards returns 0. -/
theorem c5_write_size_not_max :
    okProj (fun st => st.inode.get_size st.sb) (write_content stC5 65535 (fun _ => 7) 1)
      = some 0 ∧
    stC5.inode.get_size stC5.sb = 65535 ∧
    max (65535 + 1) (stC5.inode.get_size stC5.sb) = 65536 ∧
    (0 : Nat) ≠ 65536 := by
  refine ⟨?_, ?_, ?_, by decide⟩ <;> rfl

/-- The superblock of the free-block scenario: block 5 is in use and the
reserved block 0 is marked so that the spurious free of block 0 is
observable. -/
def sbC6 : Superblock :=
  { major_version := 0
    write_required_features := 0
    block_size := 1024
    total_blocks := 8
    used := fun b => b = 0 || b = 5 }

/-- An inode all of whose content pointers are zero (a fully-hole file)
but with a non-zero sector count. -/
def inodeC6 : Ext2INode := { baseInode with used_sectors := 5 }

/-- The free-block scenario's initial state. -/
def stC6 : Ext2State := { inode := inodeC6, sb := sbC6, disk := fun _ => 0 }

/-- C6: the claim states that freeing a logical block whose pointer is
already zero is a no-op.  For the direct index 0 with a zero pointer, the
code nevertheless calls `free_block` on block number 0 (clearing its
bitmap bit) and decrements `used_sectors` by the block's sector count, so
the state changes. -/
theorem c6_free_zero_pointer_not_noop :
    okProj (fun st => st.inode.used_sectors) (free_content_block stC6 0) = some 3 ∧
    okProj (fun st => if st.sb.used 0 then 1 else 0) (free_content_block stC6 0) = some 0 ∧
    stC6.inode.direct_block_ptrs.getD 0 0 = 0 ∧
    stC6.sb.used 0 = true ∧
    stC6.inode.used_sectors = 5 ∧
    (3 : Nat) ≠ 5 := by
  refine ⟨?_, ?_, ?_, ?_, ?_, by decide⟩ <;> rfl

/-- Modelled from the spec: the `DirectoryEntry` structure lives in the
missing `directory_entry.rs`; per spec section 3 an entry is an inode
number (0 means free), a record length, a name length, a file-type byte
and the name bytes, with an 8-byte header. -/
structure DirectoryEntry where
  inode : Nat
  total_size : Nat
  file_type : Nat
  name : List Nat
deriving DecidableEq

/-- Modelled from the spec: `DirectoryEntry::is_free` — an entry with
inode number 0 is free (`remove_dirent` frees an entry by setting its
inode to 0). -/
def DirectoryEntry.is_free (e : DirectoryEntry) : Bool := e.inode == 0

/-- Modelled from the spec: the on-disk serialization of a directory
entry — little-endian inode (4 bytes), record length (2 bytes), name
length and file-type bytes, the name, and zero padding up to the record
length. -/
def dirent_bytes (e : DirectoryEntry) : List Nat :=
  u32Bytes e.inode ++
    [e.total_size % 256, e.total_size / 256 % 256, e.name.length % 256, e.file_type % 256] ++
    e.name ++ List.replicate (e.total_size - (8 + e.name.length)) 0

/-- Modelled from the spec: `DirectoryEntry::from` — parsing an entry from
a byte buffer at a given offset. -/
def parse_dirent (buf : Nat → Nat) (off : Nat) : DirectoryEntry :=
  { inode := buf off + 256 * buf (off + 1) + 65536 * buf (off + 2) + 16777216 * buf (off + 3)
    total_size := buf (off + 4) + 256 * buf (off + 5)
    file_type := buf (off + 7)
    name := (List.range (buf (off + 6))).map (fun k => buf (off + 8 + k)) }

/-- Modelled from the spec: `DirectoryEntry::split` — the entry keeps the
first `entry_size` bytes of its record and the tail becomes a fresh free
entry. -/
def DirectoryEntry.split (e : DirectoryEntry) (entry_size : Nat) :
    DirectoryEntry × DirectoryEntry :=
  ({ e with total_size := entry_size },
   { inode := 0, total_size := e.total_size - entry_size, file_type := 0, name := [] })

/-- The per-block scan of `Ext2INode::foreach_directory_entry` (inode.rs
lines 875-895): parse the entry at `j`, call `f` only when its inode
number is positive, and advance by the record length.  A zero-length
record (which the source only debug-asserts against and would loop on) is
reported as an I/O error; `len` units of fuel make the recursion
structural. -/
def foreach_entries_block {σ : Type} (f : Nat → DirectoryEntry → σ → σ × Bool)
    (buf : Nat → Nat) (base len : Nat) : Nat → Nat → σ → Except Errno (σ × Bool)
  | 0, _j, _s => Except.error Errno.EIO
  | fuel + 1, j, s =>
    if j < len then
      let entry := parse_dirent buf j
      let total_size := entry.total_size
      if total_size = 0 then Except.error Errno.EIO
      else
        let off := base + j
        if entry.inode > 0 then
          let r := f off entry s
          if r.2 then foreach_entries_block f buf base len fuel (j + total_size) r.1
          else Except.ok (r.1, false)
        else foreach_entries_block f buf base len fuel (j + total_size) s
    else Except.ok (s, true)

/-- The block loop of `Ext2INode::foreach_directory_entry` (inode.rs
lines 869-898): read each content block and scan its entries; fuel is one
unit per block. -/
def foreach_entries_blocks {σ : Type} (ino : Ext2INode) (sb : Superblock) (disk : Disk)
    (f : Nat → DirectoryEntry → σ → σ × Bool) : Nat → Nat → σ → Except Errno σ
  | 0, _i, s => Except.ok s
  | fuel + 1, i, s =>
    let blk_size := sb.get_block_size
    let size := ino.get_size sb
    if i < size then
      let len := min (size - i) blk_size
      match ino.read_content sb disk i len (fun _ => 0) with
      | Except.error e => Except.error e
      | Except.ok r =>
        match foreach_entries_block f r.2 i len len 0 s with
        | Except.error e => Except.error e
        | Except.ok sc =>
          if sc.2 then foreach_entries_blocks ino sb disk f fuel (i + blk_size) sc.1
          else Except.ok sc.1
    else Except.ok s

/-- `Ext2INode::foreach_directory_entry` (inode.rs lines 858-901).  The
closure's mutable captures are threaded as the state `σ`; `f` returns the
new state and whether iteration may continue.  Despite its doc comment
("Free entries are also included"), the scan invokes `f` only on entries
whose inode number is positive. -/
def Ext2INode.foreach_directory_entry {σ : Type} (ino : Ext2INode) (sb : Superblock)
    (disk : Disk) (f : Nat → DirectoryEntry → σ → σ × Bool) (s : σ) : Except Errno σ :=
  foreach_entries_blocks ino sb disk f
    (ceil_division (ino.get_size sb) sb.get_block_size) 0 s

/-- `Ext2INode::get_free_entry` (inode.rs lines 954-968): first offset at
which the iteration yields a free entry of sufficient record length. -/
def get_free_entry (ino : Ext2INode) (sb : Superblock) (disk : Disk) (min_size : Nat) :
    Except Errno (Option Nat) :=
  ino.foreach_directory_entry sb disk
    (fun off e s =>
      if e.is_free && min_size ≤ e.total_size then (some off, false) else (s, true))
    none

/-- `Ext2INode::read_dirent` (inode.rs lines 820-834): read the 8-byte
header, then re-read the full record. -/
def read_dirent (ino : Ext2INode) (sb : Superblock) (disk : Disk) (off : Nat) :
    Except Errno DirectoryEntry :=
  match ino.read_content sb disk off 8 (fun _ => 0) with
  | Except.error e => Except.error e
  | Except.ok hdr =>
    let entry := parse_dirent hdr.2 0
    match ino.read_content sb disk off entry.total_size (fun _ => 0) with
    | Except.error e => Except.error e
    | Except.ok full => Except.ok (parse_dirent full.2 0)

/-- `Ext2INode::write_dirent` (inode.rs lines 841-849): write the entry's
serialized record at the given offset. -/
def write_dirent (st : Ext2State) (entry : DirectoryEntry) (off : Nat) :
    Except Errno Ext2State :=
  write_content st off (fun k => (dirent_bytes entry).getD k 0) entry.total_size

/-- `Ext2INode::add_dirent` (inode.rs lines 979-1005): reject names whose
record would exceed a block; reuse a free entry when `get_free_entry`
finds one (splitting off the tail when the record is more than 8 bytes
longer than needed); otherwise append a block-sized entry at
end-of-file. -/
def add_dirent (st : Ext2State) (entry_inode : Nat) (name : List Nat) (file_type : Nat) :
    Except Errno Ext2State :=
  let blk_size := st.sb.get_block_size
  let name_length := name.length
  let entry_size := 8 + name_length
  if entry_size > blk_size then Except.error Errno.ENAMETOOLONG
  else
    match get_free_entry st.inode st.sb st.disk entry_size with
    | Except.error e => Except.error e
    | Except.ok (some free_entry_off) =>
      match read_dirent st.inode st.sb st.disk free_entry_off with
      | Except.error e => Except.error e
      | Except.ok free_entry =>
        let do_split := entry_size + 8 < free_entry.total_size
        let step : Except Errno (DirectoryEntry × Ext2State) :=
          if do_split then
            let pr := free_entry.split entry_size
            match write_dirent st pr.2 (free_entry_off + entry_size) with
            | Except.error e => Except.error e
            | Except.ok st2 => Except.ok (pr.1, st2)
          else Except.ok (free_entry, st)
        match step with
        | Except.error e => Except.error e
        | Except.ok fs =>
          let fe := { fs.1 with inode := entry_inode, name := name, file_type := file_type }
          write_dirent fs.2 fe free_entry_off
    | Except.ok none =>
      let entry : DirectoryEntry :=
        { inode := entry_inode, total_size := blk_size, file_type := file_type, name := name }
      write_dirent st entry (st.inode.get_size st.sb)

/-- The directory block of the reuse scenario: ".", ".." and a 40-byte
free entry tiling one 64-byte block. -/
def dirBlockC7 : List Nat :=
  dirent_bytes { inode := 2, total_size := 12, file_type := 2, name := [46] } ++
    dirent_bytes { inode := 2, total_size := 12, file_type := 2, name := [46, 46] } ++
    dirent_bytes { inode := 0, total_size := 40, file_type := 0, name := [] }

/-- The superblock of the reuse scenario (64-byte blocks keep the
evaluation small; the divergence does not depend on the block size). -/
def sbC7 : Superblock :=
  { major_version := 0
    write_required_features := 0
    block_size := 64
    total_blocks := 8
    used := fun b => b < 6 }

/-- A one-block directory inode whose content block is block 5. -/
def inodeC7 : Ext2INode :=
  { baseInode with
    mode := 0x4000
    size_low := 64
    used_sectors := 1
    direct_block_ptrs := 5 :: List.replicate 11 0 }

/-- A disk holding the directory block of the reuse scenario in block 5. -/
def diskC7 : Disk := fun a =>
  if 5 * 64 ≤ a ∧ a < 5 * 64 + 64 then dirBlockC7.getD (a - 320) 0 else 0

/-- The reuse scenario's initial state. -/
def stC7 : Ext2State := { inode := inodeC7, sb := sbC7, disk := diskC7 }

/-- C7: the claim states that `add_dirent` reuses a sufficiently large
free entry in place, appending a fresh block only when none exists, so
that the directory's byte size is preserved.  The directory here holds a
40-byte free entry (as after a removal) and the new entry needs only 9
bytes, yet `get_free_entry` reports none — `foreach_directory_entry`
skips entries with inode number 0 — and `add_dirent` appends a 64-byte
record at end-of-file, growing the directory from 64 to 128 bytes. -/
theorem c7_add_dirent_ignores_free_entries :
    read_dirent inodeC7 sbC7 diskC7 24
      = Except.ok { inode := 0, total_size := 40, file_type := 0, name := [] } ∧
    (8 + 1 : Nat) ≤ 40 ∧
    get_free_entry inodeC7 sbC7 diskC7 9 = Except.ok none ∧
    okProj (fun st => st.inode.get_size st.sb) (add_dirent stC7 9 [120] 1) = some 128 ∧
    (128 : Nat) ≠ 64 := by
  refine ⟨?_, by decide, ?_, ?_, by decide⟩ <;> rfl

/-- A Running, non-init process with default handlers, used to witness
claim C9. -/
def procC9 : SigProcess :=
  { state := PState.Running
    exit_code := 0
    init := false
    is_handling := false
    pending := fun _ => false
    handlers := fun _ => SignalHandler.Default
    waitable := none
    regs := { esp := 0, eip := 0 }
    saved := none
    signal_stack := 0 }

/-- Witness for C9: delivering SIGTERM with the default handler to a
running non-init process makes it a Zombie with exit code 143. -/
theorem c9_default_action_semantics_witness :
    (Signal.SIGTERM.execute_action procC9 false).state = PState.Zombie ∧
    (Signal.SIGTERM.execute_action procC9 false).exit_code = 143 := by
  have h := c9_default_action_semantics Signal.SIGTERM procC9 false (fun _ _ => rfl)
  have h2 := h.2.2 (by decide) (Or.inl rfl)
  have h3 := h2.1 (Or.inl rfl)
  refine ⟨h3.2, ?_⟩
  have h4 := h3.1
  simpa using h4

/-- The sum maintained by `update_priority` moves by exactly
`- old + new`. -/
theorem update_priority_sum (s : Scheduler) (old new : Nat) :
    (s.update_priority old new).priority_sum = s.priority_sum - old + new := by
  simp only [Scheduler.update_priority]
  split <;> rfl

/-- `add_process` adds exactly the new process's priority to the sum: the
`priority_sum` half of claim C2's invariant holds. -/
theorem add_process_priority_sum (s : Scheduler) (p : Proc) :
    (s.add_process p).priority_sum = s.priority_sum + p.priority := by
  show (Scheduler.update_priority _ 0 p.priority).priority_sum = _
  rw [update_priority_sum]
  simp

/-- `remove_process` subtracts exactly the removed process's priority from
the sum. -/
theorem remove_process_priority_sum (s : Scheduler) (pid : Nat) (p : Proc)
    (h : s.processes.find? (fun q => q.pid = pid) = some p) :
    (s.remove_process pid).priority_sum = s.priority_sum - p.priority := by
  simp only [Scheduler.remove_process, h]
  rw [update_priority_sum]
  simp

/-- Without the 64-bit feature, `set_size` then `get_size` round-trips the
size as a `u32`: the non-64-bit half of claim C8 holds. -/
theorem set_size_get_size_32bit (ino : Ext2INode) (sb : Superblock) (size : Nat)
    (h : ¬(sb.major_version ≥ 1 ∧ sb.write_required_features &&& WRITE_REQUIRED_64_BITS ≠ 0)) :
    (ino.set_size sb size).get_size sb = size % 4294967296 := by
  simp [Ext2INode.set_size, Ext2INode.get_size, h]

/-- Reading strictly past the size fails with InvalidArgument, as claim C5
states. -/
theorem read_content_past_size_einval (ino : Ext2INode) (sb : Superblock) (disk : Disk)
    (off buflen : Nat) (buff : Nat → Nat) (h : ino.get_size sb < off) :
    ino.read_content sb disk off buflen buff = Except.error Errno.EINVAL := by
  simp [Ext2INode.read_content, h]

/-- Writing strictly past the size fails with InvalidArgument, as claim C5
states. -/
theorem write_content_past_size_einval (st : Ext2State) (off buflen : Nat)
    (buff : Nat → Nat) (h : st.inode.get_size st.sb < off) :
    write_content st off buff buflen = Except.error Errno.EINVAL := by
  simp [write_content, h]

/-- Reading at exactly the size returns zero bytes without error, as claim
C5 states. -/
theorem read_content_at_size_zero (ino : Ext2INode) (sb : Superblock) (disk : Disk)
    (buflen : Nat) (buff : Nat → Nat) :
    ino.read_content sb disk (ino.get_size sb) buflen buff = Except.ok (0, buff) := by
  cases buflen with
  | zero => simp [Ext2INode.read_content, read_content_loop]
  | succ n => simp [Ext2INode.read_content, read_content_loop]

/-- With a positive block size, the copy loop of `read_content` drives `i`
to at least `maxlen` whenever at least `maxlen - i` units of fuel
remain. -/
theorem read_content_loop_reaches (ino : Ext2INode) (sb : Superblock) (disk : Disk)
    (off maxlen buflen : Nat) (hB : 0 < sb.get_block_size) (hmb : maxlen ≤ buflen) :
    ∀ (fuel i : Nat) (buff : Nat → Nat), maxlen ≤ i + fuel →
      maxlen ≤ (read_content_loop ino sb disk off maxlen buflen fuel i buff).1 := by
  intro fuel
  induction fuel with
  | zero =>
    intro i buff h
    simpa [read_content_loop] using h
  | succ n ih =>
    intro i buff h
    by_cases hi : i < maxlen
    · have hmod : (off + i) % sb.get_block_size < sb.get_block_size :=
        Nat.mod_lt _ hB
      have hlen : 1 ≤ min (buflen - i) (sb.get_block_size - (off + i) % sb.get_block_size) := by
        have hib : i < buflen := lt_of_lt_of_le hi hmb
        omega
      simp only [read_content_loop, hi, if_true]
      apply ih
      omega
    · simp [read_content_loop, hi]
      omega

/-- When the block size is positive, `read_content` at `off ≤ size`
returns exactly `min(buflen, size - off)` bytes: the byte-count half of
claim C5's read statement holds. -/
theorem read_content_count (ino : Ext2INode) (sb : Superblock) (disk : Disk)
    (off buflen : Nat) (buff : Nat → Nat) (hB : 0 < sb.get_block_size)
    (hoff : off ≤ ino.get_size sb) :
    ∃ out, ino.read_content sb disk off buflen buff
      = Except.ok (min buflen (ino.get_size sb - off), out) := by
  have hnot : ¬ ino.get_size sb < off := not_lt.mpr hoff
  have hreach := read_content_loop_reaches ino sb disk off
    (min buflen (ino.get_size sb - off)) buflen hB (min_le_left _ _) buflen 0 buff
    (by simp)
  refine ⟨(read_content_loop ino sb disk off (min buflen (ino.get_size sb - off))
    buflen buflen 0 buff).2, ?_⟩
  simp only [Ext2INode.read_content, hnot, if_false]
  have hmin : min (read_content_loop ino sb disk off
      (min buflen (ino.get_size sb - off)) buflen buflen 0 buff).1
      (min buflen (ino.get_size sb - off)) = min buflen (ino.get_size sb - off) :=
    Nat.min_eq_right hreach
  rw [hmin]

/-- An inode with mode 0o4755 (setuid rwxr-xr-x regular file), used to
witness claim C10. -/
def inodeC10 : Ext2INode := { baseInode with mode := 0o4755 }

/-- Witness for C10: adding group-write and other-write to 0o4755 yields
the OR of the two masks, and the already-set execute bit survives. -/
theorem c10_set_permissions_only_adds_bits_witness :
    (inodeC10.set_permissions 0o022).get_permissions
      = inodeC10.get_permissions ||| (0o022 &&& 0o7777) ∧
    (inodeC10.get_permissions).testBit 0 = true ∧
    ((inodeC10.set_permissions 0o022).get_permissions).testBit 0 = true :=
  ⟨(c10_set_permissions_only_adds_bits inodeC10 0o022).1, by decide,
    (c10_set_permissions_only_adds_bits inodeC10 0o022).2 0 (by decide)⟩

end Maestro
